import Mathlib

/-!
Shallow embedding of `src/main.rs` of `dashboard_location_mapper`: a small
pipeline that reads `threat_sources.json` (two parallel arrays `Count` and
`Source`), resolves every IP string through a geolocation database, aggregates
the counts in a `HashMap<LocationKey, CityData>` keyed by the latitude and
longitude formatted to five decimal places, and writes one CSV row per map
entry after a fixed header row.

External capabilities (file opening, JSON text parsing, IP-address parsing,
the MaxMind database lookup and the `{x:.5}` float formatter) are parameters
of the model (`World`, `GeoDb`); everything after them is translated
statement by statement from the Rust source.  Machine integers (`u32`) are
`Nat` with an explicit `% 2 ^ 32` where the code adds, and the panicking
index `Count[i]` is an `Option`-valued step so that the out-of-bounds panic
is visible as `none`.
-/

set_option autoImplicit false

namespace DashboardLocationMapper

/-- `struct ThreatSources { Count: Vec<u32>, Source: Vec<String> }`
(src/main.rs lines 13-16).  The `u32` elements are `Nat`s; the JSON decoder
below only ever produces values `< 2 ^ 32`. -/
structure ThreatSources where
  Count : List Nat
  Source : List String
  deriving DecidableEq

/-- `struct CityData { city_name, country_name, total_count: u32 }`
(src/main.rs lines 20-24). -/
structure CityData where
  city_name : String
  country_name : String
  total_count : Nat
  deriving DecidableEq

/-- `struct LocationKey { lat: String, lon: String }` (src/main.rs lines
28-31), the hashable grouping key made of the two formatted coordinates. -/
structure LocationKey where
  lat : String
  lon : String
  deriving DecidableEq

/-- A `maxminddb` name table (`names: Option<BTreeMap<&str, &str>>`):
an optional association list from locale key to display name. -/
structure NamesBlock where
  names : Option (List (String × String))

/-- `geoip2::city::Location`: latitude and longitude are both optional.
`α` stands for the host float type `f64`. -/
structure LocationBlock (α : Type) where
  latitude : Option α
  longitude : Option α

/-- `geoip2::City`: the three record parts the program reads, each optional. -/
structure City (α : Type) where
  city : Option NamesBlock
  country : Option NamesBlock
  location : Option (LocationBlock α)

/-- `n.get("en").copied()` on a name table: first entry with the given
locale key. -/
def namesGet (l : List (String × String)) (k : String) : Option String :=
  (l.find? (fun p => p.1 == k)).map (fun p => p.2)

/-- The opened MaxMind reader: `reader.lookup::<geoip2::City>(ip)` returns
`Result`; a lookup error and a miss both end the record, so the model is
`Option`.  `ι` stands for `std::net::IpAddr`. -/
structure GeoDb (ι α : Type) where
  lookup : ι → Option (City α)

/-- A minimal `serde_json::Value`. -/
inductive Json where
  | null : Json
  | num : Nat → Json
  | str : String → Json
  | arr : List Json → Json
  | obj : List (String × Json) → Json

/-- The external world of one run: the fallible capabilities `main` uses
before and during the loop.
* `openInput`: `File::open("threat_sources.json")` plus reading its text;
* `parseJson`: `serde_json::from_reader`;
* `parseIp`: `ip_str.parse::<IpAddr>()`;
* `openDb`: `maxminddb::Reader::open_readfile("geoip2/city.mmdb")`;
* `fmt5`: the host formatter `format!("{x:.5}")` for floats. -/
structure World (ι α : Type) where
  openInput : Option String
  parseJson : String → Option Json
  parseIp : String → Option ι
  openDb : Option (GeoDb ι α)
  fmt5 : α → String

/-- `json["Threat Sources"]`: field of an object, `Null` when the key is
absent or the value is not an object. -/
def jsonIndex (j : Json) (k : String) : Json :=
  match j with
  | .obj fields => ((fields.find? (fun p => p.1 == k)).map (fun p => p.2)).getD .null
  | _ => .null

/-- serde deserialization of one `u32` from a JSON value: a number that
fits in 32 bits. -/
def decodeU32 : Json → Option Nat
  | .num n => if n < 2 ^ 32 then some n else none
  | _ => none

/-- serde deserialization of one `String` from a JSON value. -/
def decodeString : Json → Option String
  | .str s => some s
  | _ => none

/-- serde deserialization of an array, element by element; any element
failure fails the array. -/
def decodeList {β : Type} (f : Json → Option β) : List Json → Option (List β)
  | [] => some []
  | x :: xs =>
    match f x, decodeList f xs with
    | some b, some bs => some (b :: bs)
    | _, _ => none

/-- serde deserialization of a JSON array with element decoder `f`. -/
def decodeArr {β : Type} (f : Json → Option β) : Json → Option (List β)
  | .arr xs => decodeList f xs
  | _ => none

/-- `serde_json::from_value::<ThreatSources>`: an object with a `Count`
array of `u32` and a `Source` array of strings (src/main.rs line 62). -/
def decodeThreatSources (j : Json) : Option ThreatSources :=
  match j with
  | .obj _ =>
    match decodeArr decodeU32 (jsonIndex j "Count"),
          decodeArr decodeString (jsonIndex j "Source") with
    | some c, some s => some ⟨c, s⟩
    | _, _ => none
  | _ => none

/-- The data extracted from one record by the nested `if let` chain of
src/main.rs lines 76-95: the two display names and the grouping key. -/
structure Resolved where
  city_name : String
  country_name : String
  key : LocationKey
  deriving DecidableEq

/-- The resolution chain for one IP string (src/main.rs lines 76-95):
parse the IP, look it up, require a city name under locale `"en"`, a
country name under locale `"en"`, and a location carrying both latitude
and longitude; the key is the two coordinates formatted with `{x:.5}`.
Any failure yields `none` (the record is skipped). -/
def resolveRecord {ι α : Type} (w : World ι α) (db : GeoDb ι α) (ipStr : String) :
    Option Resolved :=
  match w.parseIp ipStr with
  | none => none
  | some ip =>
    match db.lookup ip with
    | none => none
    | some city =>
      match (city.city.bind NamesBlock.names).bind (fun n => namesGet n "en") with
      | none => none
      | some cityName =>
        match (city.country.bind NamesBlock.names).bind (fun n => namesGet n "en") with
        | none => none
        | some countryName =>
          match city.location with
          | none => none
          | some location =>
            match location.latitude, location.longitude with
            | some lat, some lon =>
              some ⟨cityName, countryName, ⟨w.fmt5 lat, w.fmt5 lon⟩⟩
            | _, _ => none

/-- The aggregation map, `HashMap<LocationKey, CityData>`, as an
association list with pairwise-distinct keys (new keys are appended). -/
abbrev AggMap := List (LocationKey × CityData)

/-- `locations.entry(key).and_modify(|e| e.total_count += count)
.or_insert_with(|| CityData { city_name, country_name, total_count: count })`
(src/main.rs lines 98-105).  The `u32` addition wraps, hence `% 2 ^ 32`. -/
def upsert (m : AggMap) (r : Resolved) (count : Nat) : AggMap :=
  match m with
  | [] => [(r.key, ⟨r.city_name, r.country_name, count⟩)]
  | (k, d) :: rest =>
    if k = r.key then
      (k, { d with total_count := (d.total_count + count) % 2 ^ 32 }) :: rest
    else
      (k, d) :: upsert rest r count

/-- The record loop of src/main.rs lines 75-112: `i` is the enumeration
index; a record that resolves reads `threat_sources.Count[i]`, which
panics (`none`) when `i` is out of bounds. -/
def runLoop (R : String → Option Resolved) (counts : List Nat) :
    Nat → List String → AggMap → Option AggMap
  | _, [], m => some m
  | i, ipStr :: rest, m =>
    match R ipStr with
    | none => runLoop R counts (i + 1) rest m
    | some r =>
      match counts[i]? with
      | none => none
      | some count => runLoop R counts (i + 1) rest (upsert m r count)

/-- The whole aggregation pass over a decoded `ThreatSources` value:
the loop started at index `0` with an empty map. -/
def aggregate {ι α : Type} (w : World ι α) (db : GeoDb ι α) (ts : ThreatSources) :
    Option AggMap :=
  runLoop (resolveRecord w db) ts.Count 0 ts.Source []

/-- The fixed header row written at src/main.rs line 69. -/
def headerRow : List String :=
  ["City Name", "Country Name", "Count", "Lat", "Lon"]

/-- One CSV data row (src/main.rs lines 116-122). -/
def rowOf (e : LocationKey × CityData) : List String :=
  [e.2.city_name, e.2.country_name, toString e.2.total_count, e.1.lat, e.1.lon]

/-- The observable outcome of one run: which way `main` ended and the rows
written to `locations.csv` at that point.  `fatal` is an early `Err` return
via `?`; `crash` is the `Count[i]` index panic, which happens after the
header was already written. -/
inductive Outcome where
  | fatal : List (List String) → Outcome
  | crash : List (List String) → Outcome
  | ok : List (List String) → Outcome
  deriving DecidableEq

/-- `main` (src/main.rs lines 58-127), parameterised by `iter`, the
unspecified iteration order of `for (key, data) in locations`: a faithful
`iter` is any permutation of the map's entries.  The four fallible setup
steps run before the CSV writer exists, so their failures write nothing. -/
def mainRun {ι α : Type} (w : World ι α) (iter : AggMap → AggMap) : Outcome :=
  match w.openInput with
  | none => .fatal []
  | some text =>
    match w.parseJson text with
    | none => .fatal []
    | some json =>
      match decodeThreatSources (jsonIndex json "Threat Sources") with
      | none => .fatal []
      | some ts =>
        match w.openDb with
        | none => .fatal []
        | some db =>
          match aggregate w db ts with
          | none => .crash [headerRow]
          | some locations => .ok (headerRow :: (iter locations).map rowOf)

/-- The rows an outcome left in `locations.csv`. -/
def rowsOf : Outcome → List (List String)
  | .fatal rows => rows
  | .crash rows => rows
  | .ok rows => rows

/-- `runLoop` with the not-yet-used counts as a list instead of an absolute
index: every iteration consumes one count position, a resolving record reads
the head.  `runLoop R cs i srcs m = runLoopD R srcs (cs.drop i) m`. -/
def runLoopD (R : String → Option Resolved) :
    List String → List Nat → AggMap → Option AggMap
  | [], _, m => some m
  | ipStr :: rest, counts, m =>
    match R ipStr with
    | none => runLoopD R rest (counts.drop 1) m
    | some r =>
      match counts.head? with
      | none => none
      | some count => runLoopD R rest (counts.drop 1) (upsert m r count)

/-- Lookup in the association-list map. -/
def findKey : AggMap → LocationKey → Option CityData
  | [], _ => none
  | (k2, d) :: rest, k => if k2 = k then some d else findKey rest k

/-- Folding a list of already-resolved records with their counts into the
map, left to right. -/
def aggList : List (Resolved × Nat) → AggMap → AggMap
  | [], m => m
  | (r, c) :: rest, m => aggList rest (upsert m r c)

/-- The records that survive resolution, each paired with the count at its
own index (`Source[i]` with `Count[i]`). -/
def resolvedZip (R : String → Option Resolved) (srcs : List String)
    (counts : List Nat) : List (Resolved × Nat) :=
  (srcs.zip counts).filterMap (fun p => (R p.1).map (fun r => (r, p.2)))

/-- The resolved records of a `ThreatSources` input with their counts. -/
def resolvedContribs {ι α : Type} (w : World ι α) (db : GeoDb ι α)
    (ts : ThreatSources) : List (Resolved × Nat) :=
  resolvedZip (resolveRecord w db) ts.Source ts.Count

/-- Sum of all counts contributed at one grouping key. -/
def groupSum (l : List (Resolved × Nat)) (k : LocationKey) : Nat :=
  ((l.filter (fun p => p.1.key = k)).map (fun p => p.2)).sum

/-- City and country name of the first resolved record at a key, in
processing order. -/
def firstNames (l : List (Resolved × Nat)) (k : LocationKey) :
    Option (String × String) :=
  (l.find? (fun p => p.1.key = k)).map (fun p => (p.1.city_name, p.1.country_name))

/-- The mathematical (unwrapped) sum of the counts of the resolved records
of `ts` whose coordinates format to the key `k`. -/
def sumCountsAt {ι α : Type} (w : World ι α) (db : GeoDb ι α)
    (ts : ThreatSources) (k : LocationKey) : Nat :=
  groupSum (resolvedContribs w db ts) k

/-- The number of distinct rounded-coordinate groups formed by the resolved
records of `ts`. -/
def distinctGroupCount {ι α : Type} (w : World ι α) (db : GeoDb ι α)
    (ts : ThreatSources) : Nat :=
  ((resolvedContribs w db ts).map (fun p => p.1.key)).toFinset.card

/-- The aggregation map after the first `n` records (`Source.take n`),
with the original indices. -/
def aggregateUpTo {ι α : Type} (w : World ι α) (db : GeoDb ι α)
    (ts : ThreatSources) (n : Nat) : Option AggMap :=
  runLoop (resolveRecord w db) ts.Count 0 (ts.Source.take n) []

/-- `city.city.and_then(|c| c.names).and_then(|n| n.get("en"))`. -/
def cityNameEn {α : Type} (c : City α) : Option String :=
  (c.city.bind NamesBlock.names).bind (fun n => namesGet n "en")

/-- `city.country.and_then(|c| c.names).and_then(|n| n.get("en"))`. -/
def countryNameEn {α : Type} (c : City α) : Option String :=
  (c.country.bind NamesBlock.names).bind (fun n => namesGet n "en")

/-- The latitude, when a location block with one is present. -/
def latOf {α : Type} (c : City α) : Option α :=
  c.location.bind LocationBlock.latitude

/-- The longitude, when a location block with one is present. -/
def lonOf {α : Type} (c : City α) : Option α :=
  c.location.bind LocationBlock.longitude

/-- A record fails resolution for one of the reasons of src/main.rs lines
76-90: unparseable IP, lookup miss, or a missing name/coordinate. -/
def resolveFails {ι α : Type} (w : World ι α) (db : GeoDb ι α)
    (ipStr : String) : Prop :=
  w.parseIp ipStr = none
  ∨ (∃ ip, w.parseIp ipStr = some ip ∧ db.lookup ip = none)
  ∨ (∃ ip city, w.parseIp ipStr = some ip ∧ db.lookup ip = some city
      ∧ (cityNameEn city = none ∨ countryNameEn city = none
          ∨ latOf city = none ∨ lonOf city = none))

/-! ### Concrete stub fixtures

Instantiations of the external capabilities used to evaluate the model on
concrete inputs: IP "addresses" are their strings, "floats" are the strings
the formatter will return verbatim. -/

/-- A fully populated lookup answer. -/
def stubCity (cn co lat lon : String) : City String :=
  { city := some ⟨some [("en", cn)]⟩
    country := some ⟨some [("en", co)]⟩
    location := some ⟨some lat, some lon⟩ }

/-- The JSON document `{"Threat Sources": {"Count": [...], "Source": [...]}}`. -/
def tsJson (counts : List Nat) (srcs : List String) : Json :=
  .obj [("Threat Sources",
    .obj [("Count", .arr (counts.map .num)), ("Source", .arr (srcs.map .str))])]

/-- A world whose input file decodes to the given arrays, whose database
answers with `f`, which rejects the IP string `"not an ip"`, and whose
float formatter returns the coordinate string unchanged. -/
def stubWorld (f : String → Option (City String)) (counts : List Nat)
    (srcs : List String) : World String String :=
  { openInput := some "input file text"
    parseJson := fun _ => some (tsJson counts srcs)
    parseIp := fun s => if s = "not an ip" then none else some s
    openDb := some ⟨f⟩
    fmt5 := fun s => s }

/-- A database answering every IP with the same fully populated city. -/
def constDb (cn co lat lon : String) : String → Option (City String) :=
  fun _ => some (stubCity cn co lat lon)

/-- A database returning different display names for `"a"` than for every
other IP, all at one shared location. -/
def twoNamesDb : String → Option (City String) :=
  fun ip =>
    if ip = "a" then some (stubCity "First City" "First Country" "1.00000" "2.00000")
    else some (stubCity "Second City" "Second Country" "1.00000" "2.00000")

/-- A database mapping `"a"` and every other IP to two different places. -/
def twoPlacesDb : String → Option (City String) :=
  fun ip =>
    if ip = "a" then some (stubCity "A City" "A Country" "1.00000" "2.00000")
    else some (stubCity "B City" "B Country" "3.00000" "4.00000")

/-- A world with no readable input file. -/
def noInputWorld : World String String :=
  { openInput := none
    parseJson := fun _ => none
    parseIp := fun _ => none
    openDb := none
    fmt5 := fun s => s }

/-! ### Structural lemmas on the record loop -/

theorem runLoop_eq_runLoopD (R : String → Option Resolved) (counts : List Nat) :
    ∀ (srcs : List String) (i : Nat) (m : AggMap),
      runLoop R counts i srcs m = runLoopD R srcs (counts.drop i) m := by
  intro srcs
  induction srcs with
  | nil => intro i m; rfl
  | cons ip rest ih =>
    intro i m
    have hdrop : (counts.drop i).drop 1 = counts.drop (i + 1) := by
      rw [List.drop_drop]
    have hhead : (counts.drop i).head? = counts[i]? := by
      simp [List.head?_eq_getElem?, List.getElem?_drop]
    cases hR : R ip with
    | none => simp only [runLoop, runLoopD, hR, hdrop, ih]
    | some r =>
      cases hc : counts[i]? with
      | none => simp only [runLoop, runLoopD, hR, hhead, hc]
      | some c => simp only [runLoop, runLoopD, hR, hhead, hc, hdrop, ih]

theorem runLoopD_append (R : String → Option Resolved) (a b : List String) :
    ∀ (counts : List Nat) (m : AggMap),
      runLoopD R (a ++ b) counts m =
        (runLoopD R a counts m).bind
          (fun m2 => runLoopD R b (counts.drop a.length) m2) := by
  induction a with
  | nil => intro counts m; simp [runLoopD]
  | cons ip rest ih =>
    intro counts m
    have hdrop : (counts.drop 1).drop rest.length = counts.drop (ip :: rest).length := by
      rw [List.drop_drop, Nat.add_comm, List.length_cons]
    cases hR : R ip with
    | none =>
      simp only [List.cons_append, runLoopD, hR, List.append_eq]
      rw [ih, hdrop]
    | some r =>
      cases hc : counts.head? with
      | none => simp only [List.cons_append, runLoopD, hR, hc, Option.none_bind]
      | some c =>
        simp only [List.cons_append, runLoopD, hR, hc, List.append_eq]
        rw [ih, hdrop]

theorem runLoopD_isSome (R : String → Option Resolved) :
    ∀ (srcs : List String) (counts : List Nat) (m : AggMap),
      srcs.length ≤ counts.length → (runLoopD R srcs counts m).isSome = true := by
  intro srcs
  induction srcs with
  | nil => intro counts m _; rfl
  | cons ip rest ih =>
    intro counts m h
    match counts with
    | [] => simp at h
    | c :: cs =>
      simp only [List.length_cons, Nat.succ_le_succ_iff] at h
      simp only [runLoopD]
      cases R ip with
      | none => exact ih cs m h
      | some r => exact ih cs (upsert m r c) h

theorem runLoopD_nil_counts (R : String → Option Resolved) :
    ∀ (srcs : List String) (m m2 : AggMap),
      runLoopD R srcs [] m = some m2 → m2 = m := by
  intro srcs
  induction srcs with
  | nil => intro m m2 h; exact (Option.some_inj.mp h).symm
  | cons ip rest ih =>
    intro m m2 h
    simp only [runLoopD] at h
    cases hR : R ip with
    | none => rw [hR] at h; exact ih m m2 h
    | some r => rw [hR] at h; exact absurd h (by simp)

theorem runLoopD_eq_aggList (R : String → Option Resolved) :
    ∀ (srcs : List String) (counts : List Nat) (m m2 : AggMap),
      runLoopD R srcs counts m = some m2 →
        m2 = aggList (resolvedZip R srcs counts) m := by
  intro srcs
  induction srcs with
  | nil =>
    intro counts m m2 h
    simp only [runLoopD] at h
    simp [resolvedZip, aggList, (Option.some_inj.mp h).symm]
  | cons ip rest ih =>
    intro counts m m2 h
    cases counts with
    | nil =>
      have := runLoopD_nil_counts R (ip :: rest) m m2 h
      simp [resolvedZip, aggList, this]
    | cons c cs =>
      simp only [runLoopD] at h
      cases hR : R ip with
      | none =>
        rw [hR] at h
        have := ih cs m m2 h
        simpa [resolvedZip, aggList, hR] using this
      | some r =>
        rw [hR] at h
        simp only [List.head?, List.drop_succ_cons, List.drop_zero] at h
        have := ih cs (upsert m r c) m2 h
        simpa [resolvedZip, aggList, hR] using this

theorem aggregate_eq_aggList {ι α : Type} (w : World ι α) (db : GeoDb ι α)
    (ts : ThreatSources) (m : AggMap) (h : aggregate w db ts = some m) :
    m = aggList (resolvedContribs w db ts) [] := by
  rw [aggregate, runLoop_eq_runLoopD, List.drop_zero] at h
  exact runLoopD_eq_aggList _ _ _ _ _ h

theorem aggregate_isSome {ι α : Type} (w : World ι α) (db : GeoDb ι α)
    (ts : ThreatSources) (h : ts.Source.length ≤ ts.Count.length) :
    (aggregate w db ts).isSome = true := by
  rw [aggregate, runLoop_eq_runLoopD, List.drop_zero]
  exact runLoopD_isSome _ _ _ _ h

/-! ### Lemmas on `upsert`, `findKey` and `aggList` -/

theorem findKey_some_mem (k : LocationKey) (d : CityData) :
    ∀ m : AggMap, findKey m k = some d → (k, d) ∈ m := by
  intro m
  induction m with
  | nil => intro h; simp [findKey] at h
  | cons q rest ih =>
    obtain ⟨k2, d2⟩ := q
    intro h
    simp only [findKey] at h
    by_cases hk : k2 = k
    · rw [if_pos hk] at h
      subst hk
      obtain rfl : d2 = d := Option.some_inj.mp h
      exact List.mem_cons_self _ _
    · rw [if_neg hk] at h
      exact List.mem_cons_of_mem _ (ih h)

theorem mem_findKey (k : LocationKey) (d : CityData) :
    ∀ m : AggMap, (m.map Prod.fst).Nodup → (k, d) ∈ m → findKey m k = some d := by
  intro m
  induction m with
  | nil => intro _ h; simp at h
  | cons q rest ih =>
    obtain ⟨k2, d2⟩ := q
    intro hnd hmem
    simp only [List.map_cons, List.nodup_cons] at hnd
    rcases List.mem_cons.mp hmem with heq | hmem2
    · obtain ⟨rfl, rfl⟩ := Prod.mk.injEq .. ▸ heq
      simp [findKey]
    · have hk : k2 ≠ k := by
        intro hk
        subst hk
        exact hnd.1 (List.mem_map_of_mem Prod.fst hmem2)
      simp only [findKey, if_neg hk]
      exact ih hnd.2 hmem2

theorem findKey_upsert_self (r : Resolved) (c : Nat) :
    ∀ m : AggMap, findKey (upsert m r c) r.key =
      some (match findKey m r.key with
            | some d => { d with total_count := (d.total_count + c) % 2 ^ 32 }
            | none => ⟨r.city_name, r.country_name, c⟩) := by
  intro m
  induction m with
  | nil => simp [upsert, findKey]
  | cons q rest ih =>
    obtain ⟨k, d⟩ := q
    by_cases hk : k = r.key
    · subst hk
      simp [upsert, findKey]
    · simp [upsert, findKey, hk, ih]

theorem findKey_upsert_ne (r : Resolved) (c : Nat) (k : LocationKey)
    (hne : k ≠ r.key) :
    ∀ m : AggMap, findKey (upsert m r c) k = findKey m k := by
  intro m
  induction m with
  | nil => simp [upsert, findKey, Ne.symm hne]
  | cons q rest ih =>
    obtain ⟨k2, d⟩ := q
    by_cases hk : k2 = r.key
    · subst hk
      simp [upsert, findKey, Ne.symm hne]
    · simp [upsert, findKey, hk, ih]

theorem keys_upsert (r : Resolved) (c : Nat) :
    ∀ m : AggMap, (upsert m r c).map Prod.fst =
      if r.key ∈ m.map Prod.fst then m.map Prod.fst
      else m.map Prod.fst ++ [r.key] := by
  intro m
  induction m with
  | nil => simp [upsert]
  | cons q rest ih =>
    obtain ⟨k, d⟩ := q
    by_cases hk : k = r.key
    · subst hk
      simp [upsert]
    · simp only [upsert, if_neg hk, List.map_cons, ih, List.mem_cons,
        Ne.symm hk, false_or]
      by_cases hmem : r.key ∈ rest.map Prod.fst
      · simp [hmem]
      · simp [hmem]

theorem keys_upsert_nodup (r : Resolved) (c : Nat) (m : AggMap)
    (h : (m.map Prod.fst).Nodup) : ((upsert m r c).map Prod.fst).Nodup := by
  rw [keys_upsert]
  by_cases hmem : r.key ∈ m.map Prod.fst
  · simpa [hmem] using h
  · simp [hmem, List.nodup_append, h]

theorem upsert_bound (r : Resolved) (c : Nat) (hc : c < 2 ^ 32) :
    ∀ m : AggMap, (∀ p ∈ m, p.2.total_count < 2 ^ 32) →
      ∀ p ∈ upsert m r c, p.2.total_count < 2 ^ 32 := by
  intro m
  induction m with
  | nil =>
    intro _ p hp
    simp only [upsert, List.mem_singleton] at hp
    simpa [hp] using hc
  | cons q rest ih =>
    obtain ⟨k, d⟩ := q
    intro hm p hp
    simp only [upsert] at hp
    by_cases hk : k = r.key
    · rw [if_pos hk] at hp
      rcases List.mem_cons.mp hp with h1 | h2
      · subst h1
        exact Nat.mod_lt _ (by norm_num)
      · exact hm p (List.mem_cons_of_mem _ h2)
    · rw [if_neg hk] at hp
      rcases List.mem_cons.mp hp with h1 | h2
      · exact hm p (h1 ▸ List.mem_cons_self _ _)
      · exact ih (fun q hq => hm q (List.mem_cons_of_mem _ hq)) p h2

theorem aggList_keys_nodup :
    ∀ (l : List (Resolved × Nat)) (m : AggMap),
      (m.map Prod.fst).Nodup → ((aggList l m).map Prod.fst).Nodup := by
  intro l
  induction l with
  | nil => intro m h; exact h
  | cons x rest ih =>
    obtain ⟨r, c⟩ := x
    intro m h
    exact ih _ (keys_upsert_nodup r c m h)

theorem aggList_keys_mem (k : LocationKey) :
    ∀ (l : List (Resolved × Nat)) (m : AggMap),
      k ∈ (aggList l m).map Prod.fst ↔
        k ∈ m.map Prod.fst ∨ k ∈ l.map (fun p => p.1.key) := by
  intro l
  induction l with
  | nil => intro m; simp [aggList]
  | cons x rest ih =>
    obtain ⟨r, c⟩ := x
    intro m
    simp only [aggList, List.map_cons, List.mem_cons]
    rw [ih, keys_upsert]
    by_cases hmem : r.key ∈ m.map Prod.fst
    · simp only [if_pos hmem]
      constructor
      · intro h; tauto
      · rintro (h | rfl | h) <;> tauto
    · simp only [if_neg hmem, List.mem_append, List.mem_singleton]
      tauto

theorem aggList_names (k : LocationKey) :
    ∀ (l : List (Resolved × Nat)) (m : AggMap),
      (findKey (aggList l m) k).map (fun d => (d.city_name, d.country_name)) =
        match findKey m k with
        | some d => some (d.city_name, d.country_name)
        | none => firstNames l k := by
  intro l
  induction l with
  | nil =>
    intro m
    cases hf : findKey m k <;> simp [aggList, firstNames, hf]
  | cons x rest ih =>
    obtain ⟨r, c⟩ := x
    intro m
    by_cases hk : r.key = k
    · subst hk
      rw [show aggList ((r, c) :: rest) m = aggList rest (upsert m r c) from rfl, ih]
      rw [findKey_upsert_self]
      cases hf : findKey m r.key with
      | none => simp [firstNames, hf]
      | some d => simp [firstNames, hf]
    · have hne : k ≠ r.key := fun h => hk h.symm
      rw [show aggList ((r, c) :: rest) m = aggList rest (upsert m r c) from rfl, ih]
      rw [findKey_upsert_ne r c k hne]
      have hfind : firstNames ((r, c) :: rest) k = firstNames rest k := by
        simp [firstNames, List.find?_cons, hk]
      rw [hfind]

theorem aggList_count (k : LocationKey) :
    ∀ (l : List (Resolved × Nat)) (m : AggMap),
      (∀ p ∈ m, p.2.total_count < 2 ^ 32) → (∀ p ∈ l, p.2 < 2 ^ 32) →
      (findKey (aggList l m) k).map CityData.total_count =
        match findKey m k with
        | some d => some ((d.total_count + groupSum l k) % 2 ^ 32)
        | none => (firstNames l k).map (fun _ => groupSum l k % 2 ^ 32) := by
  intro l
  induction l with
  | nil =>
    intro m hm _
    cases hf : findKey m k with
    | none => simp [aggList, firstNames, hf]
    | some d =>
      have hd : d.total_count < 2 ^ 32 := hm _ (findKey_some_mem k d m hf)
      simp only [aggList, groupSum, List.filter_nil, List.map_nil,
        List.sum_nil, Nat.add_zero, hf, Option.map_some]
      rw [Nat.mod_eq_of_lt hd]
      rfl
  | cons x rest ih =>
    obtain ⟨r, c⟩ := x
    intro m hm hl
    have hc : c < 2 ^ 32 := hl (r, c) (List.mem_cons_self _ _)
    have hm2 : ∀ p ∈ upsert m r c, p.2.total_count < 2 ^ 32 :=
      upsert_bound r c hc m hm
    have hl2 : ∀ p ∈ rest, p.2 < 2 ^ 32 :=
      fun p hp => hl p (List.mem_cons_of_mem _ hp)
    rw [show aggList ((r, c) :: rest) m = aggList rest (upsert m r c) from rfl,
      ih _ hm2 hl2]
    by_cases hk : r.key = k
    · subst hk
      rw [findKey_upsert_self]
      have hsum : groupSum ((r, c) :: rest) r.key = c + groupSum rest r.key := by
        simp [groupSum, List.filter_cons]
      cases hf : findKey m r.key with
      | none =>
        simp [firstNames, hf, hsum]
      | some d =>
        simp only [hf, hsum]
        rw [Nat.mod_add_mod, Nat.add_assoc]
    · have hne : k ≠ r.key := fun h => hk h.symm
      rw [findKey_upsert_ne r c k hne]
      have hsum : groupSum ((r, c) :: rest) k = groupSum rest k := by
        simp [groupSum, List.filter_cons, hk]
      have hfirst : firstNames ((r, c) :: rest) k = firstNames rest k := by
        simp [firstNames, List.find?_cons, hk]
      rw [hsum, hfirst]

/-! ### Resolution failure, record skipping, decode bounds -/

theorem resolveFails_eq_none {ι α : Type} (w : World ι α) (db : GeoDb ι α)
    (ipStr : String) (h : resolveFails w db ipStr) :
    resolveRecord w db ipStr = none := by
  rcases h with h1 | ⟨ip, h1, h2⟩ | ⟨ip, city, h1, h2, h3⟩
  · simp [resolveRecord, h1]
  · simp [resolveRecord, h1, h2]
  · cases hcn : cityNameEn city with
    | none =>
      simp only [cityNameEn] at hcn
      simp [resolveRecord, h1, h2, hcn]
    | some cn =>
      cases hco : countryNameEn city with
      | none =>
        simp only [cityNameEn] at hcn
        simp only [countryNameEn] at hco
        simp [resolveRecord, h1, h2, hcn, hco]
      | some co =>
        cases hloc : city.location with
        | none =>
          simp only [cityNameEn] at hcn
          simp only [countryNameEn] at hco
          simp [resolveRecord, h1, h2, hcn, hco, hloc]
        | some loc =>
          cases hlat : loc.latitude with
          | none =>
            simp only [cityNameEn] at hcn
            simp only [countryNameEn] at hco
            simp [resolveRecord, h1, h2, hcn, hco, hloc, hlat]
          | some lat =>
            cases hlon : loc.longitude with
            | none =>
              simp only [cityNameEn] at hcn
              simp only [countryNameEn] at hco
              simp [resolveRecord, h1, h2, hcn, hco, hloc, hlat, hlon]
            | some lon =>
              exfalso
              rcases h3 with hx | hx | hx | hx
              · simp [hx] at hcn
              · simp [hx] at hco
              · simp [latOf, hloc, hlat] at hx
              · simp [lonOf, hloc, hlon] at hx

theorem runLoopD_skip (R : String → Option Resolved) (ipStr : String)
    (hR : R ipStr = none) (c : Nat) (s2 : List String) (c2 : List Nat) :
    ∀ (s1 : List String) (c1 : List Nat), s1.length = c1.length →
      ∀ m : AggMap,
        runLoopD R (s1 ++ ipStr :: s2) (c1 ++ c :: c2) m =
          runLoopD R (s1 ++ s2) (c1 ++ c2) m := by
  intro s1
  induction s1 with
  | nil =>
    intro c1 hlen m
    obtain rfl : c1 = [] := List.length_eq_zero.mp hlen.symm
    simp [runLoopD, hR]
  | cons s rest ih =>
    intro c1 hlen m
    cases c1 with
    | nil => simp at hlen
    | cons d c1t =>
      have hlen2 : rest.length = c1t.length := by simpa using hlen
      simp only [List.cons_append, runLoopD]
      cases hRs : R s with
      | none => simpa using ih c1t hlen2 m
      | some r => simpa using ih c1t hlen2 (upsert m r d)

theorem aggList_length (l : List (Resolved × Nat)) :
    (aggList l []).length = (l.map (fun p => p.1.key)).toFinset.card := by
  have hnd : ((aggList l []).map Prod.fst).Nodup :=
    aggList_keys_nodup l [] (by simp)
  have hfin : ((aggList l []).map Prod.fst).toFinset =
      (l.map (fun p => p.1.key)).toFinset := by
    ext k2
    simp only [List.mem_toFinset]
    rw [aggList_keys_mem]
    simp
  calc (aggList l []).length
      = ((aggList l []).map Prod.fst).length := (List.length_map _ _).symm
    _ = ((aggList l []).map Prod.fst).toFinset.card :=
        (List.toFinset_card_of_nodup hnd).symm
    _ = (l.map (fun p => p.1.key)).toFinset.card := by rw [hfin]

theorem mainRun_eq_ok {ι α : Type} (w : World ι α) (iter : AggMap → AggMap)
    (txt : String) (j : Json) (ts : ThreatSources) (db : GeoDb ι α) (m : AggMap)
    (h1 : w.openInput = some txt) (h2 : w.parseJson txt = some j)
    (h3 : decodeThreatSources (jsonIndex j "Threat Sources") = some ts)
    (h4 : w.openDb = some db) (hm : aggregate w db ts = some m) :
    mainRun w iter = Outcome.ok (headerRow :: (iter m).map rowOf) := by
  simp [mainRun, h1, h2, h3, h4, hm]

theorem decodeList_u32_bound :
    ∀ (xs : List Json) (c : List Nat),
      decodeList decodeU32 xs = some c → ∀ n ∈ c, n < 2 ^ 32 := by
  intro xs
  induction xs with
  | nil =>
    intro c h n hn
    obtain rfl : ([] : List Nat) = c := by simpa [decodeList] using h
    simp at hn
  | cons x rest ih =>
    intro c h n hn
    simp only [decodeList] at h
    cases hx : decodeU32 x with
    | none => rw [hx] at h; exact absurd h (by simp)
    | some b =>
      cases hrest : decodeList decodeU32 rest with
      | none => rw [hx, hrest] at h; exact absurd h (by simp)
      | some bs =>
        rw [hx, hrest] at h
        obtain rfl : b :: bs = c := by simpa using h
        have hb : b < 2 ^ 32 := by
          cases x with
          | num k =>
            simp only [decodeU32] at hx
            by_cases hk : k < 2 ^ 32
            · rw [if_pos hk] at hx
              obtain rfl : k = b := by simpa using hx
              exact hk
            · rw [if_neg hk] at hx
              exact absurd hx (by simp)
          | null => exact absurd hx (by simp [decodeU32])
          | str s => exact absurd hx (by simp [decodeU32])
          | arr xs => exact absurd hx (by simp [decodeU32])
          | obj fs => exact absurd hx (by simp [decodeU32])
        rcases List.mem_cons.mp hn with rfl | hn2
        · exact hb
        · exact ih bs hrest n hn2

theorem decodeArr_u32_bound (j : Json) (c : List Nat)
    (h : decodeArr decodeU32 j = some c) : ∀ n ∈ c, n < 2 ^ 32 := by
  cases j <;> simp only [decodeArr] at h <;> try exact absurd h (by simp)
  case arr xs => exact decodeList_u32_bound xs c h

theorem decode_counts_bound (j : Json) (ts : ThreatSources)
    (h : decodeThreatSources j = some ts) : ∀ n ∈ ts.Count, n < 2 ^ 32 := by
  cases j with
  | obj fields =>
    simp only [decodeThreatSources] at h
    cases hc : decodeArr decodeU32 (jsonIndex (Json.obj fields) "Count") with
    | none => rw [hc] at h; exact absurd h (by simp)
    | some cl =>
      cases hs : decodeArr decodeString (jsonIndex (Json.obj fields) "Source") with
      | none => rw [hc, hs] at h; exact absurd h (by simp)
      | some sl =>
        rw [hc, hs] at h
        obtain rfl : (⟨cl, sl⟩ : ThreatSources) = ts := by simpa using h
        exact decodeArr_u32_bound _ cl hc
  | null => simp [decodeThreatSources] at h
  | num k => simp [decodeThreatSources] at h
  | str s => simp [decodeThreatSources] at h
  | arr xs => simp [decodeThreatSources] at h

/-! ### Aggregate-level characterizations -/

theorem resolvedContribs_count_mem {ι α : Type} (w : World ι α) (db : GeoDb ι α)
    (ts : ThreatSources) : ∀ p ∈ resolvedContribs w db ts, p.2 ∈ ts.Count := by
  intro p hp
  simp only [resolvedContribs, resolvedZip, List.mem_filterMap] at hp
  obtain ⟨q, hq, hmap⟩ := hp
  cases hR : resolveRecord w db q.1 with
  | none => rw [hR] at hmap; simp at hmap
  | some r =>
    rw [hR] at hmap
    obtain rfl : (r, q.2) = p := by simpa using hmap
    exact (List.of_mem_zip hq).2

theorem aggregate_count_at {ι α : Type} (w : World ι α) (db : GeoDb ι α)
    (ts : ThreatSources) (m : AggMap) (k : LocationKey) (d : CityData)
    (hcounts : ∀ n ∈ ts.Count, n < 2 ^ 32)
    (hm : aggregate w db ts = some m) (hkd : (k, d) ∈ m) :
    d.total_count = sumCountsAt w db ts k % 2 ^ 32 := by
  obtain rfl := aggregate_eq_aggList w db ts m hm
  have hl : ∀ p ∈ resolvedContribs w db ts, p.2 < 2 ^ 32 :=
    fun p hp => hcounts p.2 (resolvedContribs_count_mem w db ts p hp)
  have hnd := aggList_keys_nodup (resolvedContribs w db ts) [] (by simp)
  have hfind := mem_findKey k d _ hnd hkd
  have hchar := aggList_count k (resolvedContribs w db ts) [] (by simp) hl
  simp only [findKey] at hchar
  rw [hfind] at hchar
  cases hfn : firstNames (resolvedContribs w db ts) k with
  | none => rw [hfn] at hchar; simp at hchar
  | some nm =>
    rw [hfn] at hchar
    simpa [sumCountsAt] using hchar

theorem aggregate_names_at {ι α : Type} (w : World ι α) (db : GeoDb ι α)
    (ts : ThreatSources) (m : AggMap) (k : LocationKey) (d : CityData)
    (hm : aggregate w db ts = some m) (hkd : (k, d) ∈ m) :
    firstNames (resolvedContribs w db ts) k = some (d.city_name, d.country_name) := by
  obtain rfl := aggregate_eq_aggList w db ts m hm
  have hnd := aggList_keys_nodup (resolvedContribs w db ts) [] (by simp)
  have hfind := mem_findKey k d _ hnd hkd
  have hchar := aggList_names k (resolvedContribs w db ts) []
  simp only [findKey] at hchar
  rw [hfind] at hchar
  simpa using hchar.symm

theorem aggregate_length {ι α : Type} (w : World ι α) (db : GeoDb ι α)
    (ts : ThreatSources) (m : AggMap) (hm : aggregate w db ts = some m) :
    m.length = distinctGroupCount w db ts := by
  obtain rfl := aggregate_eq_aggList w db ts m hm
  simpa [distinctGroupCount] using aggList_length (resolvedContribs w db ts)

theorem resolveRecord_key {ι α : Type} (w : World ι α) (db : GeoDb ι α)
    (ipStr : String) (a : ι) (c : City α) (loc : LocationBlock α)
    (lat lon : α) (r : Resolved)
    (hp : w.parseIp ipStr = some a) (hl : db.lookup a = some c)
    (hloc : c.location = some loc) (hlat : loc.latitude = some lat)
    (hlon : loc.longitude = some lon)
    (hr : resolveRecord w db ipStr = some r) :
    r.key = ⟨w.fmt5 lat, w.fmt5 lon⟩ := by
  simp only [resolveRecord, hp, hl] at hr
  cases hcn : (c.city.bind NamesBlock.names).bind (fun n => namesGet n "en") with
  | none => simp [hcn] at hr
  | some cn =>
    simp only [hcn] at hr
    cases hco : (c.country.bind NamesBlock.names).bind (fun n => namesGet n "en") with
    | none => simp [hco] at hr
    | some co =>
      simp only [hco, hloc, hlat, hlon] at hr
      obtain rfl : (⟨cn, co, ⟨w.fmt5 lat, w.fmt5 lon⟩⟩ : Resolved) = r := by
        simpa using hr
      rfl

/-! ### The claims -/

/-- C1, counterexample to the claim as stated: with two resolved records of
count `2 ^ 31` each at one shared rounded location, the single output row
carries the count string `"0"` (the `u32` sum wrapped around), not the
mathematical sum `2 ^ 31 + 2 ^ 31 = 2 ^ 32`; so an output row's count can
differ from the sum of the counts of the records in its group. -/
theorem C1_counterexample :
    mainRun (stubWorld (constDb "Testville" "Testland" "1.00000" "2.00000")
        [2 ^ 31, 2 ^ 31] ["a", "b"]) (fun l => l) =
      Outcome.ok [headerRow, ["Testville", "Testland", "0", "1.00000", "2.00000"]]
    ∧ sumCountsAt (stubWorld (constDb "Testville" "Testland" "1.00000" "2.00000")
        [2 ^ 31, 2 ^ 31] ["a", "b"])
        ⟨constDb "Testville" "Testland" "1.00000" "2.00000"⟩
        ⟨[2 ^ 31, 2 ^ 31], ["a", "b"]⟩ ⟨"1.00000", "2.00000"⟩ = 2 ^ 31 + 2 ^ 31
    ∧ ¬((0 : Nat) = 2 ^ 31 + 2 ^ 31) := by
  refine ⟨by rfl, by rfl, by decide⟩

/-- C1 (amended): after a full run that decoded `ts` and aggregated it into
`m`, the output is the header row followed by one row per map entry, each
output row's count equals the sum of the counts of all resolved records
whose coordinates format to that row's key, reduced modulo `2 ^ 32` (the
`u32` accumulator), and the number of output data rows equals exactly the
number of distinct rounded-coordinate groups formed by the resolved
records. -/
theorem C1_amended {ι α : Type} (w : World ι α) (iter : AggMap → AggMap)
    (txt : String) (j : Json) (ts : ThreatSources) (db : GeoDb ι α) (m : AggMap)
    (hiter : ∀ l : AggMap, (iter l).Perm l)
    (h1 : w.openInput = some txt) (h2 : w.parseJson txt = some j)
    (h3 : decodeThreatSources (jsonIndex j "Threat Sources") = some ts)
    (h4 : w.openDb = some db) (hm : aggregate w db ts = some m) :
    mainRun w iter = Outcome.ok (headerRow :: (iter m).map rowOf)
    ∧ (∀ row ∈ (iter m).map rowOf, ∃ k d, (k, d) ∈ m ∧ row = rowOf (k, d)
        ∧ d.total_count = sumCountsAt w db ts k % 2 ^ 32)
    ∧ ((iter m).map rowOf).length = distinctGroupCount w db ts := by
  have hcb := decode_counts_bound _ _ h3
  refine ⟨mainRun_eq_ok w iter txt j ts db m h1 h2 h3 h4 hm, ?_, ?_⟩
  · intro row hrow
    obtain ⟨e, he, rfl⟩ := List.mem_map.mp hrow
    obtain ⟨k, d⟩ := e
    have hkd : (k, d) ∈ m := (hiter m).mem_iff.mp he
    exact ⟨k, d, hkd, rfl, aggregate_count_at w db ts m k d hcb hm hkd⟩
  · rw [List.length_map, (hiter m).length_eq, aggregate_length w db ts m hm]

/-- C2: first-writer-wins naming: whenever the aggregation pass completes
with map `m`, every entry's city and country names are exactly the names of
the first resolved record (in processing order) whose coordinates format to
that entry's key; records processed later at the same key, even with
different name strings, never change either name field. -/
theorem C2_first_writer_wins {ι α : Type} (w : World ι α) (db : GeoDb ι α)
    (ts : ThreatSources) (m : AggMap) (k : LocationKey) (d : CityData)
    (hm : aggregate w db ts = some m) (hkd : (k, d) ∈ m) :
    firstNames (resolvedContribs w db ts) k = some (d.city_name, d.country_name) :=
  aggregate_names_at w db ts m k d hm hkd

/-- C3: soft skip: a record whose IP string does not parse, whose lookup
fails, or whose lookup result lacks the `"en"` city name, the `"en"`
country name, the latitude or the longitude, contributes nothing: the
aggregation pass on an input containing the `(count, ip)` pair returns
exactly the same result (no error, same aggregates) as on the input with
the pair removed. -/
theorem C3_soft_skip {ι α : Type} (w : World ι α) (db : GeoDb ι α)
    (ipStr : String) (c : Nat) (s1 s2 : List String) (c1 c2 : List Nat)
    (hlen : s1.length = c1.length)
    (hfail : resolveFails w db ipStr) :
    aggregate w db ⟨c1 ++ c :: c2, s1 ++ ipStr :: s2⟩ =
      aggregate w db ⟨c1 ++ c2, s1 ++ s2⟩ := by
  have hR := resolveFails_eq_none w db ipStr hfail
  simp only [aggregate]
  rw [runLoop_eq_runLoopD, runLoop_eq_runLoopD, List.drop_zero, List.drop_zero]
  exact runLoopD_skip _ _ hR c s2 c2 s1 c1 hlen []

/-- C4: index correspondence: when the record at index `i` resolves, the
step from the aggregate over the first `i` records to the aggregate over
the first `i + 1` records is exactly one upsert with `Count[i]` — the
count used for the `i`-th IP string is `Count[i]`, never a misaligned
index. -/
theorem C4_index_correspondence {ι α : Type} (w : World ι α) (db : GeoDb ι α)
    (ts : ThreatSources) (i : Nat) (ipStr : String) (c : Nat) (r : Resolved)
    (hlen : ts.Count.length = ts.Source.length)
    (hip : ts.Source[i]? = some ipStr)
    (hc : ts.Count[i]? = some c)
    (hr : resolveRecord w db ipStr = some r) :
    aggregateUpTo w db ts (i + 1) =
      (aggregateUpTo w db ts i).map (fun m => upsert m r c) := by
  have hi : i < ts.Source.length := by
    by_contra hge
    rw [List.getElem?_eq_none (Nat.le_of_not_lt hge)] at hip
    exact Option.noConfusion hip
  have htake : ts.Source.take (i + 1) = ts.Source.take i ++ [ipStr] := by
    rw [List.take_succ, hip]
    rfl
  have hlen2 : (ts.Source.take i).length = i := by
    rw [List.length_take]
    omega
  have hhead : (ts.Count.drop i).head? = some c := by
    rw [List.head?_eq_getElem?, List.getElem?_drop]
    simpa using hc
  simp only [aggregateUpTo]
  rw [htake, runLoop_eq_runLoopD, runLoop_eq_runLoopD, List.drop_zero,
    runLoopD_append, hlen2]
  cases runLoopD (resolveRecord w db) (ts.Source.take i) ts.Count [] with
  | none => rfl
  | some m2 => simp [runLoopD, hr, hhead]

/-- C5: grouping is exactly string equality of the 5-decimal formatted
coordinates: two resolved records land in the same aggregation group (the
map after processing just these two records has a single entry) if and only
if their formatted latitude strings are identical and their formatted
longitude strings are identical; equivalently, their `LocationKey`s are
equal — no numeric comparison of the underlying coordinates is involved. -/
theorem C5_grouping_by_formatted_strings {ι α : Type} (w : World ι α)
    (db : GeoDb ι α) (ip1 ip2 : String) (a1 a2 : ι) (c1 c2 : City α)
    (loc1 loc2 : LocationBlock α) (lat1 lon1 lat2 lon2 : α)
    (r1 r2 : Resolved) (n1 n2 : Nat)
    (hp1 : w.parseIp ip1 = some a1) (hl1 : db.lookup a1 = some c1)
    (hloc1 : c1.location = some loc1) (hlat1 : loc1.latitude = some lat1)
    (hlon1 : loc1.longitude = some lon1)
    (hr1 : resolveRecord w db ip1 = some r1)
    (hp2 : w.parseIp ip2 = some a2) (hl2 : db.lookup a2 = some c2)
    (hloc2 : c2.location = some loc2) (hlat2 : loc2.latitude = some lat2)
    (hlon2 : loc2.longitude = some lon2)
    (hr2 : resolveRecord w db ip2 = some r2) :
    ((aggregate w db ⟨[n1, n2], [ip1, ip2]⟩).map List.length = some 1
      ↔ (w.fmt5 lat1 = w.fmt5 lat2 ∧ w.fmt5 lon1 = w.fmt5 lon2))
    ∧ (r1.key = r2.key ↔ (w.fmt5 lat1 = w.fmt5 lat2 ∧ w.fmt5 lon1 = w.fmt5 lon2)) := by
  have hk1 := resolveRecord_key w db ip1 a1 c1 loc1 lat1 lon1 r1
    hp1 hl1 hloc1 hlat1 hlon1 hr1
  have hk2 := resolveRecord_key w db ip2 a2 c2 loc2 lat2 lon2 r2
    hp2 hl2 hloc2 hlat2 hlon2 hr2
  have hkeys : r1.key = r2.key ↔ (w.fmt5 lat1 = w.fmt5 lat2 ∧ w.fmt5 lon1 = w.fmt5 lon2) := by
    rw [hk1, hk2]
    simp [LocationKey.mk.injEq]
  have hagg : aggregate w db ⟨[n1, n2], [ip1, ip2]⟩ =
      some (upsert (upsert [] r1 n1) r2 n2) := by
    simp [aggregate, runLoop, hr1, hr2]
  refine ⟨?_, hkeys⟩
  rw [hagg]
  by_cases hkeq : r1.key = r2.key
  · have hconj := hkeys.mp hkeq
    simp [upsert, hkeq, hconj]
  · have hnconj : ¬(w.fmt5 lat1 = w.fmt5 lat2 ∧ w.fmt5 lon1 = w.fmt5 lon2) :=
      fun hc => hkeq (hkeys.mpr hc)
    simp [upsert, hkeq, hnconj]

/-- C6: idempotent full run: for one fixed world (fixed input document and
fixed database behaviour), two complete runs that may iterate the final
`HashMap` in different orders write row lists that are permutations of each
other — the multiset of rows, names, counts and coordinate strings
included, is the same. -/
theorem C6_row_multiset_deterministic {ι α : Type} (w : World ι α)
    (iter1 iter2 : AggMap → AggMap)
    (h1 : ∀ l : AggMap, (iter1 l).Perm l)
    (h2 : ∀ l : AggMap, (iter2 l).Perm l) :
    (rowsOf (mainRun w iter1)).Perm (rowsOf (mainRun w iter2)) := by
  cases ho : w.openInput with
  | none => simp only [mainRun, ho]; exact List.Perm.refl _
  | some txt =>
    cases hj : w.parseJson txt with
    | none => simp only [mainRun, ho, hj]; exact List.Perm.refl _
    | some j =>
      cases hts : decodeThreatSources (jsonIndex j "Threat Sources") with
      | none => simp only [mainRun, ho, hj, hts]; exact List.Perm.refl _
      | some ts =>
        cases hdb : w.openDb with
        | none => simp only [mainRun, ho, hj, hts, hdb]; exact List.Perm.refl _
        | some db =>
          cases ha : aggregate w db ts with
          | none =>
            simp only [mainRun, ho, hj, hts, hdb, ha]
            exact List.Perm.refl _
          | some m =>
            simp only [mainRun, ho, hj, hts, hdb, ha, rowsOf]
            exact List.Perm.cons _ (((h1 m).trans (h2 m).symm).map rowOf)

/-- C7: fatal setup failures: when the input file cannot be opened, its
text is not valid JSON, the JSON does not decode to the expected
`"Threat Sources"` structure, or the geolocation database cannot be opened,
`main` returns an error before the CSV writer is created, so no record is
processed and nothing — not even the header row — is written. -/
theorem C7_fatal_setup {ι α : Type} (w : World ι α) (iter : AggMap → AggMap)
    (h : w.openInput = none
      ∨ (∃ txt, w.openInput = some txt ∧ w.parseJson txt = none)
      ∨ (∃ txt j, w.openInput = some txt ∧ w.parseJson txt = some j
          ∧ decodeThreatSources (jsonIndex j "Threat Sources") = none)
      ∨ w.openDb = none) :
    mainRun w iter = Outcome.fatal [] := by
  rcases h with h1 | ⟨txt, h1, h2⟩ | ⟨txt, j, h1, h2, h3⟩ | h4
  · simp [mainRun, h1]
  · simp [mainRun, h1, h2]
  · simp [mainRun, h1, h2, h3]
  · cases h1 : w.openInput with
    | none => simp [mainRun, h1]
    | some txt =>
      cases h2 : w.parseJson txt with
      | none => simp [mainRun, h1, h2]
      | some j =>
        cases h3 : decodeThreatSources (jsonIndex j "Threat Sources") with
        | none => simp [mainRun, h1, h2, h3]
        | some ts => simp [mainRun, h1, h2, h3, h4]

/-- C8: empty input: when the decoded `Threat Sources` structure has empty
`Count` and `Source` arrays, the run succeeds and the output file contains
exactly the header row
`["City Name", "Country Name", "Count", "Lat", "Lon"]` and no data rows. -/
theorem C8_empty_input {ι α : Type} (w : World ι α) (iter : AggMap → AggMap)
    (txt : String) (j : Json) (ts : ThreatSources) (db : GeoDb ι α)
    (hiter : ∀ l : AggMap, (iter l).Perm l)
    (h1 : w.openInput = some txt) (h2 : w.parseJson txt = some j)
    (h3 : decodeThreatSources (jsonIndex j "Threat Sources") = some ts)
    (hC : ts.Count = []) (hS : ts.Source = [])
    (h4 : w.openDb = some db) :
    mainRun w iter = Outcome.ok [headerRow] := by
  have hm : aggregate w db ts = some [] := by
    unfold aggregate
    rw [hS]
    rfl
  have hnil : iter [] = [] := (hiter []).eq_nil
  rw [mainRun_eq_ok w iter txt j ts db [] h1 h2 h3 h4 hm, hnil]
  rfl

/-- C9: loop totality and its limit: whenever `Source` is no longer than
`Count`, the indexed access `Count[i]` made for every resolving record is
in bounds and the record loop finishes without a panic; and without that
precondition there is an input — a `Source` array longer than `Count` whose
extra record resolves — on which the loop hits an out-of-bounds `Count[i]`
and the program is partial, since the code never checks the length
invariant. -/
theorem C9_loop_totality :
    (∀ (ι α : Type) (w : World ι α) (db : GeoDb ι α) (ts : ThreatSources),
        ts.Source.length ≤ ts.Count.length → (aggregate w db ts).isSome = true)
    ∧ (∃ (w : World String String) (db : GeoDb String String)
        (ts : ThreatSources),
        ts.Count.length < ts.Source.length
        ∧ (∃ (i : Nat) (ipStr : String) (r : Resolved),
            ts.Source[i]? = some ipStr ∧ ts.Count[i]? = none
            ∧ resolveRecord w db ipStr = some r)
        ∧ aggregate w db ts = none) := by
  constructor
  · intro ι α w db ts h
    exact aggregate_isSome w db ts h
  · exact ⟨stubWorld (constDb "A" "B" "1.00000" "2.00000") [] ["a"],
      ⟨constDb "A" "B" "1.00000" "2.00000"⟩, ⟨[], ["a"]⟩,
      by decide,
      ⟨0, "a", ⟨"A", "B", ⟨"1.00000", "2.00000"⟩⟩, rfl, rfl, rfl⟩,
      rfl⟩

/-- C10: u32 accumulation: with all input counts in `u32` range, every
aggregate entry's `total_count` equals the mathematical sum of its member
records' counts reduced modulo `2 ^ 32`, and it equals the exact
mathematical sum precisely when that sum fits in a `u32`. -/
theorem C10_u32_wraparound {ι α : Type} (w : World ι α) (db : GeoDb ι α)
    (ts : ThreatSources) (m : AggMap) (k : LocationKey) (d : CityData)
    (hcounts : ∀ n ∈ ts.Count, n < 2 ^ 32)
    (hm : aggregate w db ts = some m) (hkd : (k, d) ∈ m) :
    d.total_count = sumCountsAt w db ts k % 2 ^ 32
    ∧ (d.total_count = sumCountsAt w db ts k ↔ sumCountsAt w db ts k < 2 ^ 32) := by
  have h1 := aggregate_count_at w db ts m k d hcounts hm hkd
  refine ⟨h1, ?_, ?_⟩
  · intro he
    rw [he] at h1
    by_contra hge
    have h2 : sumCountsAt w db ts k % 2 ^ 32 < 2 ^ 32 :=
      Nat.mod_lt _ (by norm_num)
    omega
  · intro hlt
    rw [h1, Nat.mod_eq_of_lt hlt]

/-! ### Witnesses: the claim theorems applied at concrete inputs -/

/-- Witness for C1 (amended): two records of counts 5 and 3 at one shared
location produce the single data row with count string `"8"`. -/
theorem C1_amended_witness :
    mainRun (stubWorld (constDb "A" "B" "1.00000" "2.00000") [5, 3] ["a", "b"])
        (fun l => l) =
      Outcome.ok [headerRow, ["A", "B", "8", "1.00000", "2.00000"]] := by
  have h := C1_amended
    (stubWorld (constDb "A" "B" "1.00000" "2.00000") [5, 3] ["a", "b"])
    (fun l => l) "input file text" (tsJson [5, 3] ["a", "b"])
    ⟨[5, 3], ["a", "b"]⟩ ⟨constDb "A" "B" "1.00000" "2.00000"⟩
    [(⟨"1.00000", "2.00000"⟩, ⟨"A", "B", 8⟩)]
    (fun l => List.Perm.refl l) rfl rfl rfl rfl rfl
  exact h.1

/-- Witness for C2: records `"a"` and `"b"` share the rounded location but
the stub database names them differently; the aggregate keeps the names of
the first record. -/
theorem C2_witness :
    firstNames (resolvedContribs (stubWorld twoNamesDb [3, 4] ["a", "b"])
        ⟨twoNamesDb⟩ ⟨[3, 4], ["a", "b"]⟩) ⟨"1.00000", "2.00000"⟩ =
      some ("First City", "First Country") :=
  C2_first_writer_wins (stubWorld twoNamesDb [3, 4] ["a", "b"]) ⟨twoNamesDb⟩
    ⟨[3, 4], ["a", "b"]⟩
    [(⟨"1.00000", "2.00000"⟩, ⟨"First City", "First Country", 7⟩)]
    ⟨"1.00000", "2.00000"⟩ ⟨"First City", "First Country", 7⟩
    rfl (by simp)

/-- Witness for C3: the unparseable IP string `"not an ip"` with its count
is dropped without changing the result. -/
theorem C3_witness :
    aggregate (stubWorld (constDb "A" "B" "1.00000" "2.00000") [9, 5]
        ["x", "not an ip"]) ⟨constDb "A" "B" "1.00000" "2.00000"⟩
        ⟨[9] ++ 5 :: [], ["x"] ++ "not an ip" :: []⟩ =
      aggregate (stubWorld (constDb "A" "B" "1.00000" "2.00000") [9, 5]
        ["x", "not an ip"]) ⟨constDb "A" "B" "1.00000" "2.00000"⟩
        ⟨[9] ++ [], ["x"] ++ []⟩ :=
  C3_soft_skip (stubWorld (constDb "A" "B" "1.00000" "2.00000") [9, 5]
      ["x", "not an ip"]) ⟨constDb "A" "B" "1.00000" "2.00000"⟩
    "not an ip" 5 ["x"] [] [9] [] rfl (Or.inl rfl)

/-- Witness for C4: the resolving record at index 1 is upserted with
`Count[1] = 7`, not the count at any other index. -/
theorem C4_witness :
    aggregateUpTo (stubWorld (constDb "A" "B" "1.00000" "2.00000") [5, 7]
        ["q", "p"]) ⟨constDb "A" "B" "1.00000" "2.00000"⟩ ⟨[5, 7], ["q", "p"]⟩ 2 =
      (aggregateUpTo (stubWorld (constDb "A" "B" "1.00000" "2.00000") [5, 7]
        ["q", "p"]) ⟨constDb "A" "B" "1.00000" "2.00000"⟩
        ⟨[5, 7], ["q", "p"]⟩ 1).map
        (fun m => upsert m ⟨"A", "B", ⟨"1.00000", "2.00000"⟩⟩ 7) :=
  C4_index_correspondence
    (stubWorld (constDb "A" "B" "1.00000" "2.00000") [5, 7] ["q", "p"])
    ⟨constDb "A" "B" "1.00000" "2.00000"⟩ ⟨[5, 7], ["q", "p"]⟩ 1 "p" 7
    ⟨"A", "B", ⟨"1.00000", "2.00000"⟩⟩ rfl rfl rfl rfl

/-- Witness for C5: two records resolving to distinct formatted coordinate
strings form one group exactly when the strings agree (here they do not). -/
theorem C5_witness :
    (aggregate (stubWorld twoPlacesDb [1, 2] ["a", "b"]) ⟨twoPlacesDb⟩
        ⟨[1, 2], ["a", "b"]⟩).map List.length = some 1
      ↔ ((stubWorld twoPlacesDb [1, 2] ["a", "b"]).fmt5 "1.00000" =
            (stubWorld twoPlacesDb [1, 2] ["a", "b"]).fmt5 "3.00000"
          ∧ (stubWorld twoPlacesDb [1, 2] ["a", "b"]).fmt5 "2.00000" =
            (stubWorld twoPlacesDb [1, 2] ["a", "b"]).fmt5 "4.00000") := by
  have h := C5_grouping_by_formatted_strings
    (stubWorld twoPlacesDb [1, 2] ["a", "b"]) ⟨twoPlacesDb⟩ "a" "b" "a" "b"
    (stubCity "A City" "A Country" "1.00000" "2.00000")
    (stubCity "B City" "B Country" "3.00000" "4.00000")
    ⟨some "1.00000", some "2.00000"⟩ ⟨some "3.00000", some "4.00000"⟩
    "1.00000" "2.00000" "3.00000" "4.00000"
    ⟨"A City", "A Country", ⟨"1.00000", "2.00000"⟩⟩
    ⟨"B City", "B Country", ⟨"3.00000", "4.00000"⟩⟩ 1 2
    rfl rfl rfl rfl rfl rfl rfl rfl rfl rfl rfl rfl
  exact h.1

/-- Witness for C6: iterating the final map in given order and in reverse
order writes the same rows up to permutation. -/
theorem C6_witness :
    (rowsOf (mainRun (stubWorld (constDb "A" "B" "1.00000" "2.00000") [5, 3]
        ["a", "b"]) (fun l => l))).Perm
      (rowsOf (mainRun (stubWorld (constDb "A" "B" "1.00000" "2.00000") [5, 3]
        ["a", "b"]) (fun l => l.reverse))) :=
  C6_row_multiset_deterministic
    (stubWorld (constDb "A" "B" "1.00000" "2.00000") [5, 3] ["a", "b"])
    (fun l => l) (fun l => l.reverse)
    (fun l => List.Perm.refl l) (fun l => List.reverse_perm l)

/-- Witness for C7: a world whose input file cannot be opened ends as an
error with nothing written. -/
theorem C7_witness : mainRun noInputWorld (fun l => l) = Outcome.fatal [] :=
  C7_fatal_setup noInputWorld (fun l => l) (Or.inl rfl)

/-- Witness for C8: empty `Count` and `Source` arrays give exactly the
header row. -/
theorem C8_witness :
    mainRun (stubWorld (constDb "A" "B" "1.00000" "2.00000") [] [])
        (fun l => l) = Outcome.ok [headerRow] :=
  C8_empty_input (stubWorld (constDb "A" "B" "1.00000" "2.00000") [] [])
    (fun l => l) "input file text" (tsJson [] []) ⟨[], []⟩
    ⟨constDb "A" "B" "1.00000" "2.00000"⟩
    (fun l => List.Perm.refl l) rfl rfl rfl rfl rfl rfl

/-- Witness for C10: the entry total 8 equals the group sum `5 + 3` modulo
`2 ^ 32`, and equals it exactly since the sum fits in a `u32`. -/
theorem C10_witness :
    (8 : Nat) = sumCountsAt (stubWorld (constDb "A" "B" "1.00000" "2.00000")
        [5, 3] ["a", "b"]) ⟨constDb "A" "B" "1.00000" "2.00000"⟩
        ⟨[5, 3], ["a", "b"]⟩ ⟨"1.00000", "2.00000"⟩ % 2 ^ 32
    ∧ ((8 : Nat) = sumCountsAt (stubWorld (constDb "A" "B" "1.00000" "2.00000")
        [5, 3] ["a", "b"]) ⟨constDb "A" "B" "1.00000" "2.00000"⟩
        ⟨[5, 3], ["a", "b"]⟩ ⟨"1.00000", "2.00000"⟩
      ↔ sumCountsAt (stubWorld (constDb "A" "B" "1.00000" "2.00000")
        [5, 3] ["a", "b"]) ⟨constDb "A" "B" "1.00000" "2.00000"⟩
        ⟨[5, 3], ["a", "b"]⟩ ⟨"1.00000", "2.00000"⟩ < 2 ^ 32) :=
  C10_u32_wraparound (stubWorld (constDb "A" "B" "1.00000" "2.00000") [5, 3]
      ["a", "b"]) ⟨constDb "A" "B" "1.00000" "2.00000"⟩ ⟨[5, 3], ["a", "b"]⟩
    [(⟨"1.00000", "2.00000"⟩, ⟨"A", "B", 8⟩)] ⟨"1.00000", "2.00000"⟩
    ⟨"A", "B", 8⟩ (by decide) rfl (by simp)

end DashboardLocationMapper
